import Mathlib

/- Verification of the dynamic-routing core of the pascallin/go-micro-services
   API gateway. The embedding below covers the gateway wiring in
   cmd/gateway/main.go and the discovery helper getClient; the go-kit
   load-balancer and retry components are not part of the repository, so they
   are modelled from the specification (each such definition says so). -/

namespace GoMicro

variable {ε ρ κ : Type}

/-- A parsed URL as produced by Go's net/url.Parse, reduced to the fields the
gateway touches: the raw parsed address and the path component the factory
overwrites (tgt.Path = path). Parsing itself is an external stdlib call and is
passed to the factories as a function; failure is embedded as none. -/
structure GoURL where
  raw : String
  path : String
deriving DecidableEq, Repr, Inhabited

/-- One go-kit HTTP client endpoint as built by httptransport.NewClient in the
factories: the HTTP method, the target URL, and the names of the encode and
decode functions selected by the switch on path. -/
structure ClientEndpoint where
  method : String
  target : GoURL
  enc : String
  dec : String
deriving DecidableEq, Repr

/-- The result of one sd.Factory call: an endpoint together with the io.Closer
returned beside it (none embeds Go's nil), or a build error. -/
inductive FactoryOutput where
  | ok (ep : ClientEndpoint) (closer : Option Unit)
  | buildError (msg : String)
deriving DecidableEq, Repr

/-- Whether a factory call returned a build error. -/
def FactoryOutput.isBuildError : FactoryOutput → Bool
  | .buildError _ => true
  | _ => false

/-- Whether a factory call returned an endpoint with a nil closer and no
error. -/
def FactoryOutput.isOkNoCloser : FactoryOutput → Bool
  | .ok _ none => true
  | _ => false

/-- Whether one character list starts with another, elementwise. -/
def listStartsWith [DecidableEq α] : List α → List α → Bool
  | _, [] => true
  | [], _ :: _ => false
  | x :: xs, y :: ys => decide (x = y) && listStartsWith xs ys

/-- Go's strings.HasPrefix, embedded over the character lists of the two
strings so that it evaluates inside the kernel. -/
def strStartsWith (s p : String) : Bool :=
  listStartsWith s.toList p.toList

/-- The address normalization both factories perform before url.Parse
(cmd/gateway/main.go lines 151-153 and 179-181): if the instance string does
not start with the literal characters http, prepend the default scheme. -/
def normalizeInstance (instanceAddr : String) : String :=
  if strStartsWith instanceAddr "http" then instanceAddr else "http://" ++ instanceAddr

/-- addsvcFactory from cmd/gateway/main.go (lines 149-175): normalize the
instance address, parse it (parse embeds url.Parse; a parse error returns
nil endpoint, nil closer and the error), overwrite the target path, then
switch on path to pick the codec pair; an unknown path returns the build
error, and a successful build returns the client endpoint with a nil
closer. -/
def addsvcFactory (parse : String → Option GoURL) (method path : String)
    (instanceAddr : String) : FactoryOutput :=
  match parse (normalizeInstance instanceAddr) with
  | none => .buildError "url parse error"
  | some tgt =>
    if path = "/sum" then
      .ok ⟨method, { tgt with path := path },
        "addtransport.EncodeHTTPGenericRequest",
        "addtransport.DecodeHTTPSumResponse"⟩ none
    else if path = "/concat" then
      .ok ⟨method, { tgt with path := path },
        "addtransport.EncodeHTTPGenericRequest",
        "addtransport.DecodeHTTPConcatResponse"⟩ none
    else .buildError ("unknown stringsvc path " ++ path)

/-- stringsvcFactory from cmd/gateway/main.go (lines 177-203): same shape as
addsvcFactory with the stringsvc codec pairs for /uppercase and /count. -/
def stringsvcFactory (parse : String → Option GoURL) (method path : String)
    (instanceAddr : String) : FactoryOutput :=
  match parse (normalizeInstance instanceAddr) with
  | none => .buildError "url parse error"
  | some tgt =>
    if path = "/uppercase" then
      .ok ⟨method, { tgt with path := path },
        "stringsvc.EncodeRequest",
        "stringsvc.DecodeUppercaseResponse"⟩ none
    else if path = "/count" then
      .ok ⟨method, { tgt with path := path },
        "stringsvc.EncodeRequest",
        "stringsvc.DecodeCountResponse"⟩ none
    else .buildError ("unknown stringsvc path " ++ path)

/-- One route installed by main: the inbound mux path, the consul service
name given to NewInstancer, the allocation indices of the discovery and
balancing objects constructed for the route (each call to
consulsd.NewInstancer, sd.NewEndpointer, lb.NewRoundRobin and lb.Retry in
main allocates a fresh object with its own state; objects are numbered in
program order), and the factory arguments and server codec names. -/
structure RouteBinding where
  inboundPath : String
  serviceName : String
  instancerId : Nat
  endpointerId : Nat
  balancerId : Nat
  retryId : Nat
  method : String
  factoryPath : String
  decodeFn : String
  encodeFn : String
deriving DecidableEq, Repr, Inhabited

/-- The four routes main installs (cmd/gateway/main.go lines 70-129): one
instancer per service block (addsvc, addstring), and per route a fresh
endpointer, round-robin balancer and retry wrapper. -/
def gatewayRoutes : List RouteBinding :=
  [⟨"/addsvc/sum", "addsvc", 0, 0, 0, 0, "POST", "/sum",
      "addtransport.DecodeHTTPSumRequest", "addtransport.EncodeHTTPGenericResponse"⟩,
   ⟨"/addsvc/concat", "addsvc", 0, 1, 1, 1, "POST", "/concat",
      "addtransport.DecodeHTTPConcatRequest", "addtransport.EncodeHTTPGenericResponse"⟩,
   ⟨"/stringsvc/uppercase", "addstring", 1, 2, 2, 2, "POST", "/uppercase",
      "stringsvc.DecodeUppercaseRequest", "stringsvc.EncodeResponse"⟩,
   ⟨"/stringsvc/count", "addstring", 1, 3, 3, 3, "POST", "/count",
      "stringsvc.DecodeUppercaseRequest", "stringsvc.EncodeResponse"⟩]

/-- The i-th route installed by main, in program order. -/
def routeAt (i : Nat) : RouteBinding :=
  gatewayRoutes.getD i default

/-- The outcome of a startup step: either continue with the constructed
value, or log a message and call os.Exit with the given status code. -/
inductive StartupStep (κ : Type) where
  | proceed (client : κ)
  | logAndExit (logged : String) (code : Nat)
deriving DecidableEq, Repr

/-- The consul client construction block of the gateway main
(cmd/gateway/main.go lines 47-59): the outcome of api.NewClient is passed
in; on error, main logs err and calls os.Exit(1); otherwise it proceeds with
the client (wrapped by consulsd.NewClient). -/
def mainConsulClientStep (newClientResult : Except String κ) : StartupStep κ :=
  match newClientResult with
  | .error e => .logAndExit e 1
  | .ok c => .proceed c

/-- getClient from the discovery package: identical shape — on api.NewClient
error it logs err and calls os.Exit(1), otherwise it returns the wrapped
client. -/
def getClientStep (newClientResult : Except String κ) : StartupStep κ :=
  match newClientResult with
  | .error e => .logAndExit e 1
  | .ok c => .proceed c

/-- A character allowed in a URI scheme after the leading letter. -/
def isSchemeChar (c : Char) : Bool :=
  c.isAlphanum || c = '+' || c = '-' || c = '.'

/-- Stated from the claim's words (scheme-less address): whether an address
carries a URI scheme, i.e. starts with a letter followed by scheme
characters and a colon. -/
def hasScheme (s : String) : Bool :=
  let cs := s.toList
  let pre := cs.takeWhile (fun c => c ≠ ':')
  !(cs.dropWhile (fun c => c ≠ ':')).isEmpty && !pre.isEmpty &&
    (pre.headD ' ').isAlpha && pre.all isSchemeChar

/-- Modelled from the spec: a TransportError — one invocation attempt failed
(connection refused, timeout, non-success response). -/
structure TransportError where
  msg : String
deriving DecidableEq, Repr, Inhabited

/-- Modelled from the spec: load-balancer selection failure (NoEndpointsError,
the pool was empty at selection time). -/
inductive LBError where
  | noEndpoints
deriving DecidableEq, Repr

/-- Modelled from the spec (4.4 Load Balancer; the lb.NewRoundRobin balancer
is library code outside this repository): Select returns the record at
cursor mod len(snapshot) and increments the cursor; it fails with
NoEndpoints when the snapshot is empty. -/
def select (snapshot : List ε) (cursor : Nat) : Except LBError (ε × Nat) :=
  match snapshot with
  | [] => .error .noEndpoints
  | x :: xs =>
    .ok ((x :: xs).get ⟨cursor % (x :: xs).length, Nat.mod_lt _ (by simp)⟩, cursor + 1)

/-- The endpoint the round-robin balancer yields on its i-th Select call
(zero-based) over a fixed snapshot when the cursor started at 0. -/
def nthSelect [Inhabited ε] (pool : List ε) (i : Nat) : ε :=
  pool.getD (i % pool.length) default

/-- The endpoints returned by k consecutive Select calls over a fixed
snapshot starting from the given cursor (empty once a call fails). -/
def selectSeq (pool : List ε) : Nat → Nat → List ε
  | 0, _ => []
  | k + 1, c =>
    match select pool c with
    | .error _ => []
    | .ok (x, c') => x :: selectSeq pool k c'

/-- Modelled from the spec (3. Data Model): RetryPolicy. Durations are
modelled as Nat ticks. -/
structure RetryPolicy where
  maxAttempts : Nat
  timeoutBudget : Nat
deriving DecidableEq, Repr

/-- Modelled from the spec: the outcome of invoking one chosen endpoint — a
response or a TransportError, together with the attempt's duration. -/
inductive AttemptOutcome (ρ : Type) where
  | success (r : ρ) (duration : Nat)
  | failure (err : TransportError) (duration : Nat)
deriving DecidableEq, Repr

/-- Modelled from the spec (4.5, 7): the terminal outcomes of Invoke. -/
inductive InvokeResult (ρ : Type) where
  | ok (r : ρ)
  | noEndpoints
  | retryExhausted (last : TransportError)
  | canceled
deriving DecidableEq, Repr

/-- The trace of one Invoke call: its terminal result, the number of attempts
made, the elapsed time, and the endpoints selected, in order. -/
structure InvokeOutcome (ε ρ : Type) where
  result : InvokeResult ρ
  attempts : Nat
  elapsed : Nat
  selections : List ε
deriving DecidableEq, Repr

/-- An invoke trace extended with one earlier selection. -/
def InvokeOutcome.withSelection (x : ε) (o : InvokeOutcome ε ρ) : InvokeOutcome ε ρ :=
  ⟨o.result, o.attempts, o.elapsed, x :: o.selections⟩

/-- Modelled from the spec (4.5 Retry Orchestrator; lb.Retry is library code
outside this repository): each iteration re-reads the pool's current
snapshot (pools i), selects with the shared cursor, and invokes the chosen
endpoint. An empty snapshot surfaces NoEndpoints immediately, consuming no
attempt and no time. A success within the budget terminates; an attempt
whose duration crosses the deadline is canceled with the elapsed time capped
at the budget; a failure that exactly reaches either bound (last attempt or
exact budget) exits with the most recent error wrapped as RetryExhausted;
otherwise the loop retries. The fuel-0 base case is unreachable from invoke
when maxAttempts is positive, because the loop exits on the iteration that
uses the last unit of fuel. -/
def invokeLoop (t : Nat) (run : ε → AttemptOutcome ρ) (pools : Nat → List ε) :
    Nat → Nat → Nat → Nat → InvokeOutcome ε ρ
  | 0, i, _, e => ⟨.canceled, i, e, []⟩
  | fuel + 1, i, c, e =>
    match select (pools i) c with
    | .error _ => ⟨.noEndpoints, i, e, []⟩
    | .ok (chosen, c') =>
      match run chosen with
      | .success r d =>
        if e + d ≤ t then ⟨.ok r, i + 1, e + d, [chosen]⟩
        else ⟨.canceled, i + 1, t, [chosen]⟩
      | .failure err d =>
        if t < e + d then ⟨.canceled, i + 1, t, [chosen]⟩
        else if fuel = 0 ∨ e + d = t then ⟨.retryExhausted err, i + 1, e + d, [chosen]⟩
        else (invokeLoop t run pools fuel (i + 1) c' (e + d)).withSelection chosen

/-- Modelled from the spec: Invoke starts at iteration 0 with cursor 0, zero
elapsed time and an attempt budget of maxAttempts; pools gives the Pool's
current snapshot as re-read at each iteration. -/
def invoke (policy : RetryPolicy) (run : ε → AttemptOutcome ρ)
    (pools : Nat → List ε) : InvokeOutcome ε ρ :=
  invokeLoop policy.timeoutBudget run pools policy.maxAttempts 0 0 0

/-- The endpoint Invoke selects at iteration i when every attempt fails: the
cursor and the iteration index advance together from 0. -/
def iterSelect [Inhabited ε] (pools : Nat → List ε) (i : Nat) : ε :=
  (pools i).getD (i % (pools i).length) default

/-- A parse function for concrete witnesses: every address parses, keeping
its text. -/
def demoParse : String → Option GoURL :=
  fun s => some ⟨s, ""⟩

/-- A run function for concrete witnesses: every attempt fails instantly. -/
def demoRun : String → AttemptOutcome Nat :=
  fun _ => .failure ⟨"boom"⟩ 0

/-- A static two-endpoint pool for concrete witnesses. -/
def demoPools : Nat → List String :=
  fun _ => ["A", "B"]

/-- An always-empty pool for concrete witnesses. -/
def demoEmptyPools : Nat → List String :=
  fun _ => []

/-- A pool that loses B and gains C after the first iteration, for concrete
witnesses of snapshot re-reading. -/
def demoChurnPools : Nat → List String :=
  fun i => if i = 0 then ["A", "B"] else ["A", "C"]

/-- On a nonempty snapshot, Select yields the endpoint at cursor mod length
and advances the cursor by one. -/
theorem select_nonempty [Inhabited ε] (pool : List ε) (h : pool ≠ []) (c : Nat) :
    select pool c = .ok (nthSelect pool c, c + 1) := by
  match pool, h with
  | x :: xs, _ =>
    have hlt : c % (x :: xs).length < (x :: xs).length := Nat.mod_lt _ (by simp)
    simp only [select, nthSelect, List.get_eq_getElem, List.getD_eq_getElem _ _ hlt]

/-- Over a nonempty snapshot, k consecutive Select calls from any cursor
return the endpoints at consecutive cursor positions. -/
theorem selectSeq_eq_map_range [Inhabited ε] (pool : List ε) (h : pool ≠ []) :
    ∀ k c, selectSeq pool k c = (List.range k).map (fun j => nthSelect pool (c + j)) := by
  intro k
  induction k with
  | zero => intro c; simp [selectSeq]
  | succ k ih =>
    intro c
    rw [List.range_succ_eq_map, List.map_cons, List.map_map]
    simp only [selectSeq, select_nonempty pool h]
    rw [ih (c + 1)]
    refine congrArg₂ List.cons (by simp) (List.map_congr_left ?_)
    intro j _
    simp only [Function.comp_apply]
    congr 1
    omega

/-- Enumerating the first length positions of the round-robin order yields
the pool itself. -/
theorem map_range_nthSelect [Inhabited ε] (pool : List ε) :
    (List.range pool.length).map (fun j => nthSelect pool j) = pool := by
  apply List.ext_getElem (by simp)
  intro i h1 h2
  have h2' : i < pool.length := by simpa using h2
  simp only [List.getElem_map, List.getElem_range, nthSelect]
  rw [Nat.mod_eq_of_lt h2', List.getD_eq_getElem _ _ h2']

/-- C2: for a static snapshot of N endpoints, N consecutive Select calls
starting from cursor 0 return each endpoint exactly once in pool order; each
call at cursor i returns the endpoint at index i mod N and advances the
cursor, and the call after a full cycle repeats the first endpoint. -/
theorem roundRobin_cycle [Inhabited ε] (pool : List ε) (h : pool ≠ []) :
    selectSeq pool pool.length 0 = pool ∧
    (∀ i, select pool i = .ok (nthSelect pool i, i + 1)) ∧
    nthSelect pool pool.length = nthSelect pool 0 ∧
    (∀ k, selectSeq pool k 0 = (List.range k).map (fun j => nthSelect pool j)) := by
  have hseq : ∀ k, selectSeq pool k 0 = (List.range k).map (fun j => nthSelect pool j) := by
    intro k
    rw [selectSeq_eq_map_range pool h k 0]
    simp
  refine ⟨?_, fun i => select_nonempty pool h i, ?_, hseq⟩
  · rw [hseq pool.length, map_range_nthSelect]
  · simp [nthSelect, Nat.mod_self]

/-- Witness for C2 at the pool A B C: three calls enumerate the pool once,
six calls yield A B C A B C, and the fourth call repeats the first. -/
theorem roundRobin_cycle_witness :
    (["A", "B", "C"] ≠ ([] : List String)) ∧
    selectSeq ["A", "B", "C"] 3 0 = ["A", "B", "C"] ∧
    selectSeq ["A", "B", "C"] 6 0 = ["A", "B", "C", "A", "B", "C"] ∧
    nthSelect ["A", "B", "C"] 3 = nthSelect ["A", "B", "C"] 0 := by
  have h := roundRobin_cycle ["A", "B", "C"] (by decide)
  exact ⟨by decide, h.1, by decide, h.2.2.1⟩

/-- The loop invariant of the retry orchestrator: starting from any state
within the time budget, the loop never exceeds its attempt fuel and never
reports more elapsed time than the budget. -/
theorem invokeLoop_bounds (t : Nat) (run : ε → AttemptOutcome ρ)
    (pools : Nat → List ε) :
    ∀ fuel i c e, e ≤ t →
      (invokeLoop t run pools fuel i c e).attempts ≤ i + fuel ∧
      (invokeLoop t run pools fuel i c e).elapsed ≤ t := by
  intro fuel
  induction fuel with
  | zero =>
    intro i c e he
    simp only [invokeLoop]
    exact ⟨by omega, he⟩
  | succ fuel ih =>
    intro i c e he
    simp only [invokeLoop]
    split
    · exact ⟨by simp, he⟩
    · rename_i chosen c' hsel
      split
      · rename_i r d hrq
        split
        · rename_i hle
          exact ⟨by simp, by simpa using hle⟩
        · exact ⟨by simp, by simp⟩
      · rename_i err d hrq
        split
        · exact ⟨by simp, by simp⟩
        · rename_i hnlt
          split
          · exact ⟨by simp, by simp; omega⟩
          · rename_i hcond
            have hrec := ih (i + 1) c' (e + d) (by omega)
            refine ⟨?_, ?_⟩
            · have := hrec.1
              simp only [InvokeOutcome.withSelection]
              omega
            · simpa [InvokeOutcome.withSelection] using hrec.2

/-- When the snapshot read at the current iteration is empty, the loop
surfaces NoEndpoints at once, with the attempts and elapsed time it had on
entry: the failed selection consumes no attempt and no time. -/
theorem invokeLoop_empty (t : Nat) (run : ε → AttemptOutcome ρ)
    (pools : Nat → List ε) (fuel i c e : Nat) (hf : 0 < fuel)
    (h : pools i = []) :
    invokeLoop t run pools fuel i c e = ⟨.noEndpoints, i, e, []⟩ := by
  match fuel, hf with
  | fuel + 1, _ => simp [invokeLoop, h, select]

/-- One step of the loop when the selection succeeds, the attempt fails, and
neither bound is reached: the loop recurses with one unit less fuel and the
chosen endpoint recorded first. -/
theorem invokeLoop_failStep (t : Nat) (run : ε → AttemptOutcome ρ)
    (pools : Nat → List ε) (fuel i c e : Nat) (chosen : ε) (c' : Nat)
    (err : TransportError) (d : Nat)
    (hsel : select (pools i) c = .ok (chosen, c'))
    (hrun : run chosen = .failure err d)
    (hnlt : ¬ t < e + d) (hcond : ¬ (fuel = 0 ∨ e + d = t)) :
    invokeLoop t run pools (fuel + 1) i c e =
      (invokeLoop t run pools fuel (i + 1) c' (e + d)).withSelection chosen := by
  conv_lhs => rw [invokeLoop]
  rw [hsel]
  simp only [hrun, if_neg hnlt, if_neg hcond]

/-- Mapping over an extended range peels off the first position. -/
theorem map_range_cons_shift (u : Nat → α) (n : Nat) :
    (List.range (n + 1)).map u = u 0 :: (List.range n).map (fun j => u (j + 1)) := by
  rw [List.range_succ_eq_map, List.map_cons, List.map_map]
  rfl

/-- When every endpoint fails instantly and no snapshot is ever empty, the
loop burns all its fuel, selecting at iteration j the endpoint at cursor j,
and exits with the last failure wrapped as RetryExhausted. -/
theorem invokeLoop_allFail [Inhabited ε] (t : Nat) (run : ε → AttemptOutcome ρ)
    (pools : Nat → List ε) (errOf : ε → TransportError)
    (hrun : ∀ x, run x = .failure (errOf x) 0)
    (hpool : ∀ i, pools i ≠ []) (ht : 0 < t) :
    ∀ fuel i, 0 < fuel →
      invokeLoop t run pools fuel i i 0 =
        ⟨.retryExhausted (errOf (iterSelect pools (i + fuel - 1))), i + fuel, 0,
          (List.range fuel).map (fun j => iterSelect pools (i + j))⟩ := by
  intro fuel
  induction fuel with
  | zero => intro i h; exact absurd h (Nat.lt_irrefl 0)
  | succ fuel ih =>
    intro i _
    have hne := hpool i
    have hchosen : nthSelect (pools i) i = iterSelect pools i := rfl
    cases fuel with
    | zero =>
      simp [invokeLoop, select_nonempty (pools i) hne i, hrun, hchosen,
        Nat.ne_of_gt ht, List.range_succ]
    | succ k =>
      rw [invokeLoop_failStep t run pools (k + 1) i i 0 (nthSelect (pools i) i)
          (i + 1) (errOf (nthSelect (pools i) i)) 0
          (select_nonempty (pools i) hne i) (hrun _) (by omega) (by omega)]
      simp only [Nat.add_zero]
      rw [ih (i + 1) (Nat.succ_pos k)]
      simp only [InvokeOutcome.withSelection]
      have h1 : i + 1 + (k + 1) - 1 = i + (k + 1 + 1) - 1 := by omega
      have h2 : i + 1 + (k + 1) = i + (k + 1 + 1) := by omega
      rw [h1, h2]
      congr 1
      conv_rhs => rw [map_range_cons_shift (fun j => iterSelect pools (i + j)) (k + 1)]
      refine congrArg₂ List.cons ?_ (List.map_congr_left ?_)
      · exact hchosen
      · intro j _
        congr 1
        omega

/-- C1 (spec-modelled): Invoke makes at most maxAttempts attempts and its
elapsed time never exceeds timeoutBudget; and when every selected endpoint
fails with a TransportError (instantaneously, so that the attempt bound and
not the time bound is the binding constraint) over never-empty snapshots,
Invoke performs exactly maxAttempts selections and returns RetryExhausted
wrapping the failure of the last (maxAttempts-th) attempt. -/
theorem invoke_bounds_and_exhaustion [Inhabited ε] (policy : RetryPolicy)
    (run : ε → AttemptOutcome ρ) (pools : Nat → List ε)
    (hm : 0 < policy.maxAttempts) :
    ((invoke policy run pools).attempts ≤ policy.maxAttempts ∧
      (invoke policy run pools).elapsed ≤ policy.timeoutBudget) ∧
    ∀ errOf : ε → TransportError,
      (∀ x, run x = .failure (errOf x) 0) →
      (∀ i, pools i ≠ []) →
      0 < policy.timeoutBudget →
      invoke policy run pools =
        ⟨.retryExhausted (errOf (iterSelect pools (policy.maxAttempts - 1))),
          policy.maxAttempts, 0,
          (List.range policy.maxAttempts).map (fun j => iterSelect pools j)⟩ := by
  constructor
  · have h := invokeLoop_bounds policy.timeoutBudget run pools
      policy.maxAttempts 0 0 0 (Nat.zero_le _)
    simpa [invoke] using h
  · intro errOf hrun hpool ht
    have h := invokeLoop_allFail policy.timeoutBudget run pools errOf hrun hpool ht
      policy.maxAttempts 0 hm
    simpa [invoke] using h

/-- Witness for C1: maxAttempts 3, budget 5 ticks, every attempt an instant
failure over the static pool A B: three attempts, RetryExhausted, within
bounds. -/
theorem invoke_bounds_and_exhaustion_witness :
    (0 < (3 : Nat)) ∧
    (invoke ⟨3, 5⟩ demoRun demoPools).attempts ≤ 3 ∧
    (invoke ⟨3, 5⟩ demoRun demoPools).elapsed ≤ 5 ∧
    invoke ⟨3, 5⟩ demoRun demoPools =
      ⟨.retryExhausted ⟨"boom"⟩, 3, 0, ["A", "B", "A"]⟩ := by
  have h := invoke_bounds_and_exhaustion ⟨3, 5⟩ demoRun demoPools (by decide)
  have h2 := h.2 (fun _ => ⟨"boom"⟩) (fun x => rfl)
    (fun i => List.cons_ne_nil "A" ["B"]) (by decide)
  refine ⟨by decide, h.1.1, h.1.2, ?_⟩
  rw [h2]
  rfl

/-- C3 (spec-modelled): Select on an empty snapshot fails with NoEndpoints;
the retry loop surfaces that failure at once, consuming no attempt and no
time — in particular, an Invoke that finds the pool empty at its first
selection returns with zero attempts and zero elapsed time. -/
theorem emptyPool_surfaces_noEndpoints (t : Nat) (run : ε → AttemptOutcome ρ)
    (pools : Nat → List ε) (policy : RetryPolicy)
    (hm : 0 < policy.maxAttempts) :
    (∀ c, select ([] : List ε) c = .error .noEndpoints) ∧
    (∀ fuel i c e, 0 < fuel → pools i = [] →
      invokeLoop t run pools fuel i c e = ⟨.noEndpoints, i, e, []⟩) ∧
    (pools 0 = [] → invoke policy run pools = ⟨.noEndpoints, 0, 0, []⟩) := by
  refine ⟨fun c => rfl,
    fun fuel i c e hf he => invokeLoop_empty t run pools fuel i c e hf he,
    fun h0 => ?_⟩
  simp only [invoke]
  exact invokeLoop_empty policy.timeoutBudget run pools policy.maxAttempts 0 0 0 hm h0

/-- Witness for C3: an always-empty pool makes Invoke return NoEndpoints
with zero attempts and zero elapsed time. -/
theorem emptyPool_surfaces_noEndpoints_witness :
    (0 < (3 : Nat)) ∧ demoEmptyPools 0 = [] ∧
    invoke ⟨3, 5⟩ demoRun demoEmptyPools = ⟨.noEndpoints, 0, 0, []⟩ :=
  ⟨by decide, rfl,
    (emptyPool_surfaces_noEndpoints 5 demoRun demoEmptyPools ⟨3, 5⟩ (by decide)).2.2 rfl⟩

/-- A successful Select returns a member of the snapshot it selected from. -/
theorem select_mem (pool : List ε) (c : Nat) (x : ε) (c' : Nat)
    (h : select pool c = .ok (x, c')) : x ∈ pool := by
  match pool with
  | [] => simp [select] at h
  | y :: ys =>
    simp only [select, Except.ok.injEq, Prod.mk.injEq] at h
    rw [← h.1]
    exact List.get_mem _ _ _

/-- A selection the loop records at relative position j was drawn from the
snapshot of iteration i plus j. -/
theorem invokeLoop_selections_mem (t : Nat) (run : ε → AttemptOutcome ρ)
    (pools : Nat → List ε) :
    ∀ fuel i c e j x,
      (invokeLoop t run pools fuel i c e).selections.get? j = some x →
      x ∈ pools (i + j) := by
  intro fuel
  induction fuel with
  | zero => intro i c e j x h; simp [invokeLoop] at h
  | succ fuel ih =>
    intro i c e j x h
    simp only [invokeLoop] at h
    split at h
    · simp at h
    · rename_i chosen c' hsel
      have hmem : chosen ∈ pools i := select_mem (pools i) c chosen c' hsel
      split at h
      · split at h
        all_goals
          cases j with
          | zero =>
            simp at h
            simpa [← h] using hmem
          | succ j => simp at h
      · split at h
        · cases j with
          | zero =>
            simp at h
            simpa [← h] using hmem
          | succ j => simp at h
        · split at h
          · cases j with
            | zero =>
              simp at h
              simpa [← h] using hmem
            | succ j => simp at h
          · simp only [InvokeOutcome.withSelection] at h
            cases j with
            | zero =>
              simp at h
              simpa [← h] using hmem
            | succ j =>
              simp only [List.get?_cons_succ] at h
              have hr := ih (i + 1) c' _ j x h
              have harith : i + 1 + j = i + (j + 1) := by omega
              rwa [harith] at hr

/-- C4 (spec-modelled): every retry iteration selects from the pool snapshot
current at that iteration — the j-th selection of Invoke belongs to pools j;
hence an endpoint absent from every snapshot from iteration r onward is
never selected at or after iteration r. -/
theorem invoke_reads_current_snapshot (policy : RetryPolicy)
    (run : ε → AttemptOutcome ρ) (pools : Nat → List ε) :
    (∀ j x, (invoke policy run pools).selections.get? j = some x → x ∈ pools j) ∧
    (∀ b r, (∀ j, r ≤ j → b ∉ pools j) →
      ∀ j, r ≤ j → ¬ (invoke policy run pools).selections.get? j = some b) := by
  have h1 : ∀ j x, (invoke policy run pools).selections.get? j = some x →
      x ∈ pools j := by
    intro j x h
    simpa using invokeLoop_selections_mem policy.timeoutBudget run pools
      policy.maxAttempts 0 0 0 j x h
  exact ⟨h1, fun b r habs j hrj hc => habs j hrj (h1 j b hc)⟩

/-- Witness for C4: the pool starts as A B; from iteration 1 on it is A C.
The trace selects A, C, A — after the refresh B is never selected — and the
selection at position 1 is a member of the snapshot of iteration 1. -/
theorem invoke_reads_current_snapshot_witness :
    (invoke ⟨3, 5⟩ demoRun demoChurnPools).selections = ["A", "C", "A"] ∧
    (invoke ⟨3, 5⟩ demoRun demoChurnPools).selections.get? 1 = some "C" ∧
    "C" ∈ demoChurnPools 1 := by
  refine ⟨by decide, by decide, ?_⟩
  exact (invoke_reads_current_snapshot ⟨3, 5⟩ demoRun demoChurnPools).1 1 "C" (by decide)

/-- C5 counterexample: the sum and concat bindings for addsvc do not share a
balancer or an endpoint pool — main constructs a fresh sd.NewEndpointer and
lb.NewRoundRobin inside each route block, so the two routes have distinct
balancers (with distinct cursors) and distinct pools; only the instancer is
shared. -/
theorem addsvc_shared_balancer_counterexample :
    (routeAt 0).serviceName = "addsvc" ∧ (routeAt 1).serviceName = "addsvc" ∧
    (routeAt 0).factoryPath = "/sum" ∧ (routeAt 1).factoryPath = "/concat" ∧
    ¬ (routeAt 0).balancerId = (routeAt 1).balancerId ∧
    ¬ (routeAt 0).endpointerId = (routeAt 1).endpointerId := by
  decide

/-- C5 amended: per downstream service there is exactly one instancer
(registry subscription) shared by all of that service's routes, but each
route/method pair gets its own endpoint pool, its own round-robin balancer
(hence its own cursor) and its own retry wrapper: any two distinct routes
have distinct endpointer, balancer and retry ids, while routes of the same
service share their instancer id. -/
theorem per_route_wiring :
    (∀ r1 ∈ gatewayRoutes, ∀ r2 ∈ gatewayRoutes,
      r1.serviceName = r2.serviceName → r1.instancerId = r2.instancerId) ∧
    (∀ r1 ∈ gatewayRoutes, ∀ r2 ∈ gatewayRoutes, ¬ r1 = r2 →
      ¬ r1.endpointerId = r2.endpointerId ∧
      ¬ r1.balancerId = r2.balancerId ∧
      ¬ r1.retryId = r2.retryId) := by
  decide

/-- Witness for C5 (amended): the sum and concat routes share their
instancer but not their balancer. -/
theorem per_route_wiring_witness :
    (routeAt 0).instancerId = (routeAt 1).instancerId ∧
    ¬ (routeAt 0).balancerId = (routeAt 1).balancerId :=
  ⟨per_route_wiring.1 (routeAt 0) (by decide) (routeAt 1) (by decide) (by decide),
    (per_route_wiring.2 (routeAt 0) (by decide) (routeAt 1) (by decide) (by decide)).2.1⟩

/-- C6: a path outside the recognized set of its factory yields a build
error (nil endpoint, nil closer) for every address, parseable or not; a
recognized path together with a parseable address yields an endpoint with a
nil closer and no error. -/
theorem factory_path_recognition (parse : String → Option GoURL)
    (method path instanceAddr : String) :
    (path ∉ (["/sum", "/concat"] : List String) →
      (addsvcFactory parse method path instanceAddr).isBuildError = true) ∧
    (path ∉ (["/uppercase", "/count"] : List String) →
      (stringsvcFactory parse method path instanceAddr).isBuildError = true) ∧
    (∀ u, parse (normalizeInstance instanceAddr) = some u →
      (path ∈ (["/sum", "/concat"] : List String) →
        (addsvcFactory parse method path instanceAddr).isOkNoCloser = true) ∧
      (path ∈ (["/uppercase", "/count"] : List String) →
        (stringsvcFactory parse method path instanceAddr).isOkNoCloser = true)) := by
  refine ⟨?_, ?_, ?_⟩
  · intro hnot
    simp only [List.mem_cons, List.mem_singleton, not_or] at hnot
    unfold addsvcFactory
    cases parse (normalizeInstance instanceAddr) <;>
      simp [FactoryOutput.isBuildError, hnot.1, hnot.2.1]
  · intro hnot
    simp only [List.mem_cons, List.mem_singleton, not_or] at hnot
    unfold stringsvcFactory
    cases parse (normalizeInstance instanceAddr) <;>
      simp [FactoryOutput.isBuildError, hnot.1, hnot.2.1]
  · intro u hu
    constructor
    · intro hmem
      simp only [List.mem_cons, List.not_mem_nil, or_false] at hmem
      unfold addsvcFactory
      rw [hu]
      rcases hmem with h | h <;> subst h <;> simp [FactoryOutput.isOkNoCloser]
    · intro hmem
      simp only [List.mem_cons, List.not_mem_nil, or_false] at hmem
      unfold stringsvcFactory
      rw [hu]
      rcases hmem with h | h <;> subst h <;> simp [FactoryOutput.isOkNoCloser]

/-- Witness for C6: the unknown path /bogus is rejected, the recognized path
/sum with a parseable address builds an endpoint with no error and a nil
closer. -/
theorem factory_path_recognition_witness :
    ("/bogus" ∉ (["/sum", "/concat"] : List String)) ∧
    (addsvcFactory demoParse "POST" "/bogus" "localhost:8080").isBuildError = true ∧
    (demoParse (normalizeInstance "localhost:8080") =
      some ⟨"http://localhost:8080", ""⟩) ∧
    ("/sum" ∈ (["/sum", "/concat"] : List String)) ∧
    (addsvcFactory demoParse "POST" "/sum" "localhost:8080").isOkNoCloser = true := by
  refine ⟨by decide, ?_, by decide, by decide, ?_⟩
  · exact (factory_path_recognition demoParse "POST" "/bogus" "localhost:8080").1
      (by decide)
  · exact ((factory_path_recognition demoParse "POST" "/sum" "localhost:8080").2.2
      ⟨"http://localhost:8080", ""⟩ (by decide)).1 (by decide)

/-- C7 counterexample: the address httpx.local carries no scheme (it has no
colon at all), yet normalization leaves it unchanged because it begins with
the characters http; the factory therefore does not target http:// plus the
address. -/
theorem scheme_normalization_counterexample :
    hasScheme "httpx.local" = false ∧
    normalizeInstance "httpx.local" = "httpx.local" ∧
    ¬ normalizeInstance "httpx.local" = "http://" ++ "httpx.local" := by
  decide

/-- C7 amended: normalization keys on the literal character sequence http
rather than on the presence of a scheme: an address that does not start with
http is prefixed with the default scheme http://, while an address starting
with http — scheme or not — is left unchanged; both factories parse the
normalized address and the built endpoint's target is the parsed address
with the route's path. -/
theorem scheme_normalization (parse : String → Option GoURL)
    (method instanceAddr : String) :
    (strStartsWith instanceAddr "http" = false →
      normalizeInstance instanceAddr = "http://" ++ instanceAddr) ∧
    (strStartsWith instanceAddr "http" = true →
      normalizeInstance instanceAddr = instanceAddr) ∧
    (∀ u, parse (normalizeInstance instanceAddr) = some u →
      addsvcFactory parse method "/sum" instanceAddr =
        .ok ⟨method, { u with path := "/sum" },
          "addtransport.EncodeHTTPGenericRequest",
          "addtransport.DecodeHTTPSumResponse"⟩ none ∧
      stringsvcFactory parse method "/uppercase" instanceAddr =
        .ok ⟨method, { u with path := "/uppercase" },
          "stringsvc.EncodeRequest",
          "stringsvc.DecodeUppercaseResponse"⟩ none) := by
  refine ⟨fun h => by simp [normalizeInstance, h], fun h => by simp [normalizeInstance, h], ?_⟩
  intro u hu
  constructor
  · unfold addsvcFactory
    rw [hu]
    simp
  · unfold stringsvcFactory
    rw [hu]
    simp

/-- Witness for C7 (amended): localhost:8080 does not start with http and is
normalized to http://localhost:8080; http://a starts with http and is kept;
the built endpoint for /sum targets the parsed normalized address. -/
theorem scheme_normalization_witness :
    strStartsWith "localhost:8080" "http" = false ∧
    normalizeInstance "localhost:8080" = "http://" ++ "localhost:8080" ∧
    strStartsWith "http://a" "http" = true ∧
    normalizeInstance "http://a" = "http://a" ∧
    addsvcFactory demoParse "POST" "/sum" "localhost:8080" =
      .ok ⟨"POST", ⟨"http://localhost:8080", "/sum"⟩,
        "addtransport.EncodeHTTPGenericRequest",
        "addtransport.DecodeHTTPSumResponse"⟩ none := by
  refine ⟨by decide, ?_, by decide, ?_, ?_⟩
  · exact (scheme_normalization demoParse "POST" "localhost:8080").1 (by decide)
  · exact (scheme_normalization demoParse "POST" "http://a").2.1 (by decide)
  · exact ((scheme_normalization demoParse "POST" "localhost:8080").2.2
      ⟨"http://localhost:8080", ""⟩ (by decide)).1

/-- C8: when api.NewClient fails during startup, both the gateway main and
the discovery package's getClient log the error and exit the process with
status 1 — a non-zero status — and never proceed to serve. -/
theorem startup_failure_exits (e : String) :
    mainConsulClientStep (Except.error e : Except String Unit) = .logAndExit e 1 ∧
    getClientStep (Except.error e : Except String Unit) = .logAndExit e 1 ∧
    (∀ c : Unit, ¬ mainConsulClientStep (Except.error e : Except String Unit) = .proceed c) ∧
    (∀ c : Unit, ¬ getClientStep (Except.error e : Except String Unit) = .proceed c) ∧
    ¬ (1 : Nat) = 0 := by
  refine ⟨rfl, rfl, fun c h => ?_, fun c h => ?_, by decide⟩
  · simp [mainConsulClientStep] at h
  · simp [getClientStep] at h

/-- Witness for C8 at a concrete startup error. -/
theorem startup_failure_exits_witness :
    mainConsulClientStep (Except.error "connection refused" : Except String Unit) =
      .logAndExit "connection refused" 1 ∧
    getClientStep (Except.error "connection refused" : Except String Unit) =
      .logAndExit "connection refused" 1 :=
  ⟨(startup_failure_exits "connection refused").1,
    (startup_failure_exits "connection refused").2.1⟩

/-- C9: every successful factory build — from either factory — returns a nil
closer beside the endpoint, so removing an instance releases nothing at the
factory's interface. -/
theorem factory_closer_is_nil (parse : String → Option GoURL)
    (method path instanceAddr : String) (ep : ClientEndpoint) (cl : Option Unit) :
    (addsvcFactory parse method path instanceAddr = .ok ep cl → cl = none) ∧
    (stringsvcFactory parse method path instanceAddr = .ok ep cl → cl = none) := by
  constructor
  · intro h
    cases cl with
    | none => rfl
    | some c =>
      exfalso
      unfold addsvcFactory at h
      cases hp : parse (normalizeInstance instanceAddr) <;> rw [hp] at h
      · simp at h
      · dsimp only at h
        split at h
        · simp at h
        · split at h <;> simp at h
  · intro h
    cases cl with
    | none => rfl
    | some c =>
      exfalso
      unfold stringsvcFactory at h
      cases hp : parse (normalizeInstance instanceAddr) <;> rw [hp] at h
      · simp at h
      · dsimp only at h
        split at h
        · simp at h
        · split at h <;> simp at h

/-- Witness for C9: a successful /sum build carries a nil closer. -/
theorem factory_closer_is_nil_witness :
    (addsvcFactory demoParse "POST" "/sum" "localhost:8080" =
      .ok ⟨"POST", ⟨"http://localhost:8080", "/sum"⟩,
        "addtransport.EncodeHTTPGenericRequest",
        "addtransport.DecodeHTTPSumResponse"⟩ none) ∧
    (none : Option Unit) = none :=
  ⟨by decide,
    (factory_closer_is_nil demoParse "POST" "/sum" "localhost:8080"
      ⟨"POST", ⟨"http://localhost:8080", "/sum"⟩,
        "addtransport.EncodeHTTPGenericRequest",
        "addtransport.DecodeHTTPSumResponse"⟩ none).1 (by decide)⟩

/-- C10: the stringsvc count route is registered with the same inbound
decoder as the uppercase route — stringsvc.DecodeUppercaseRequest — not a
count-specific one, so the two stringsvc routes decode every inbound request
identically. -/
theorem stringsvc_routes_same_decoder :
    (routeAt 2).inboundPath = "/stringsvc/uppercase" ∧
    (routeAt 3).inboundPath = "/stringsvc/count" ∧
    (routeAt 2).decodeFn = "stringsvc.DecodeUppercaseRequest" ∧
    (routeAt 3).decodeFn = "stringsvc.DecodeUppercaseRequest" ∧
    (routeAt 3).decodeFn = (routeAt 2).decodeFn := by
  decide

end GoMicro
